import Mathlib

/-!
# Verification of the job-status polling client (`ImportManager`)

Shallow embedding of the polling / adaptive-refresh client implemented by
`ImportManager` in the repository (the variant with the content fingerprint,
the in-flight guard, the adaptive interval and the cleanup method).  JS
values that may be `undefined` are modelled as `Option`; JS numbers as `ℚ`;
`JSON.stringify` of the reduced job projection is modelled by the projection
itself with structural equality (stringify is injective on these records,
with `undefined`-valued keys omitted, which the `Option` model captures).
-/

namespace ImportManager

/-- JS `Math.round`: round half away from zero is `⌊x + 1/2⌋` for the
non-negative percentages involved here (Math.round rounds half up). -/
def mathRound (x : ℚ) : ℤ := ⌊x + 1/2⌋

/-- JS `Math.max(0, Math.min(100, x))` used for the progress-bar width. -/
def clamp100 (x : ℚ) : ℚ := max 0 (min 100 x)

/-- Nested per-URL progress record (`progress.urls[i]`).  All fields may be
absent in the payload. -/
structure UrlProgress where
  url : Option String
  status : Option String
  stage : Option String
  local_percent : Option ℚ
deriving DecidableEq, Repr

/-- The `progress` sub-record of a job.  Every field may be absent; the
consumer destructures with defaults (`total = 0`, `stage` the empty string, `urls = []`). -/
structure Progress where
  total : Option ℚ
  success : Option ℚ
  failed : Option ℚ
  stage : Option String
  urls : Option (List UrlProgress)
deriving DecidableEq, Repr

/-- The `result` record, present only for completed jobs. -/
structure JobResult where
  indexed : Option ℚ
  total_urls : Option ℚ
  success : Option ℚ
  failed : Option ℚ
deriving DecidableEq, Repr

/-- A job record as returned by `GET /recipes/ingest/status`.  Fields the
payload may omit are `Option`. -/
structure Job where
  job_id : Option String
  status : Option String
  progress_percent : Option ℚ
  progress : Option Progress
  result : Option JobResult
  detail : Option String
deriving DecidableEq, Repr

/-! ## URL validation (`validateUrls`, `handleSubmit`) -/

/-- `url.toLowerCase().includes(domain)`: substring containment after
lower-casing, modelled on the character list with per-character case
folding (String.toLowerCase and Char case folding agree on the ASCII
range the domain list lives in). -/
def strContains (s pat : String) : Bool :=
  decide (pat.toList <:+: s.toList.map Char.toLower)

/-- The closed list of supported domains from `validateUrls`. -/
def supportedDomains : List String :=
  ["youtube.com", "youtu.be", "instagram.com", "facebook.com", "tiktok.com", "fb.watch"]

/-- `supportedDomains.some(domain => url.toLowerCase().includes(domain))`. -/
def isValidUrl (url : String) : Bool :=
  supportedDomains.any (fun domain => strContains url domain)

/-- `validateUrls`: partition the input into `(valid, invalid)` by pushing
each URL, in input order, onto one of two accumulators. -/
def validateUrls (urls : List String) : List String × List String :=
  urls.foldl
    (fun acc url =>
      if isValidUrl url then (acc.1 ++ [url], acc.2) else (acc.1, acc.2 ++ [url]))
    ([], [])

/-- The list of URLs `handleSubmit` passes to `startImport` (the ingest
endpoint), given the URLs extracted from the input box: `none` when nothing
is submitted (empty input or no supported URL). -/
def handleSubmitSubmitted (urls : List String) : Option (List String) :=
  if urls.isEmpty then none
  else
    let v := validateUrls urls
    if v.1.isEmpty then none else some v.1

/-! ## Job projection, fingerprint and aggregate counts -/

/-- The reduced projection of one job that enters the content fingerprint:
`{ id: j.job_id, status: j.status, progress: j.progress_percent,
   stage: j.progress?.stage }`. -/
structure FpEntry where
  id : Option String
  status : Option String
  progress : Option ℚ
  stage : Option String
deriving DecidableEq, Repr

/-- The projection applied to each job by `loadJobs` before hashing. -/
def projJob (j : Job) : FpEntry :=
  { id := j.job_id
    status := j.status
    progress := j.progress_percent
    stage := j.progress.bind Progress.stage }

/-- `JSON.stringify(jobs.map(j => ({...})))` modelled by the projection list
itself: stringify is injective on these records, so string equality of the
hashes coincides with structural equality of the projections. -/
def fingerprintOf (jobs : List Job) : List FpEntry :=
  jobs.map projJob

/-- The values `this.lastJobsHash` ranges over once set: the literal
marker string (the 404 path writes the literal string empty) or a stringified projection; these are
never equal as strings since a stringified array starts with a bracket. -/
inductive JHash where
  | empty : JHash
  | jobList (fp : List FpEntry) : JHash
deriving DecidableEq, Repr

/-- Aggregate counters published to the `completedCount` / `runningCount` /
`queuedCount` elements. -/
structure Stats where
  completed : ℕ
  running : ℕ
  queued : ℕ
deriving DecidableEq, Repr

/-- Whether `j.status` is running or queued (the active predicate
used by `loadJobs` to pick the cadence). -/
def isActive (j : Job) : Bool :=
  j.status == some "running" || j.status == some "queued"

/-- `updateJobStats`: filter counts per status. -/
def statsOf (jobs : List Job) : Stats :=
  { completed := (jobs.filter (fun j => j.status == some "completed")).length
    running := (jobs.filter (fun j => j.status == some "running")).length
    queued := (jobs.filter (fun j => j.status == some "queued")).length }

/-! ## Poller state and one poll step -/

/-- The client-owned mutable state of the poller: stored fingerprint,
active-jobs flag, the in-flight guard, the interval timer (period in ms
when armed), the published counters, and whether the abort controller has
been aborted. -/
structure MState where
  lastJobsHash : Option JHash
  hasActiveJobs : Bool
  isRefreshing : Bool
  timer : Option ℕ
  stats : Stats
  aborted : Bool
deriving DecidableEq, Repr

/-- Constructor-assigned initial values of the mutable fields
(`lastJobsHash = null`, `hasActiveJobs = false`, `_isRefreshing = false`;
the timer is armed separately by `startPeriodicRefresh`). -/
def initState : MState :=
  { lastJobsHash := none
    hasActiveJobs := false
    isRefreshing := false
    timer := none
    stats := ⟨0, 0, 0⟩
    aborted := false }

/-- Fast cadence: 1500 ms between polls while jobs are active. -/
def fastInterval : ℕ := 1500

/-- Slow cadence: 10000 ms between polls when no job is active. -/
def slowInterval : ℕ := 10000

/-- `optimizeRefreshInterval`: clear the current interval and arm a new one
whose period is chosen by the activity flag. -/
def optimizeRefreshInterval (s : MState) : MState :=
  { s with timer := some (if s.hasActiveJobs then fastInterval else slowInterval) }

/-- `cleanup()`: stop the periodic refresh, abort the controller, and reset
the guard flag and the fingerprint.  No statement of `cleanup` assigns
`hasActiveJobs`. -/
def cleanup (s : MState) : MState :=
  { s with timer := none
           aborted := true
           isRefreshing := false
           lastJobsHash := none }

/-- How the awaited fetch (and `response.json()`) settles, as seen by the
body of `loadJobs`. -/
inductive FetchOutcome where
  | ok (jobs : List Job)
  | notFound
  | httpError
  | netError
  | abortError
deriving DecidableEq, Repr

/-- Observable collaborator calls made during one `loadJobs` body. -/
structure Events where
  fetchStarted : Bool
  renderJobsCalls : ℕ
  renderEmptyCalls : ℕ
  statsPublished : Option Stats
  rearmed : Bool
  notified : Bool
  dbStatsRefreshed : Bool
deriving DecidableEq, Repr

/-- No collaborator call. -/
def noEvents : Events :=
  { fetchStarted := false
    renderJobsCalls := 0
    renderEmptyCalls := 0
    statsPublished := none
    rearmed := false
    notified := false
    dbStatsRefreshed := false }

/-- The `try`/`catch` body of `loadJobs` after the fetch settled with
outcome `o` (the guard is handled by the caller, the `finally` clears it
afterwards).  Mirrors the source statement for statement:
404 branch, hash computation, active-flag update, fingerprint-gated
render, unconditional `updateJobStats`, edge-triggered
`optimizeRefreshInterval`, completed-triggered `loadDatabaseStats`,
and the `catch` that notifies except on `AbortError`. -/
def processOutcome (s : MState) (o : FetchOutcome) : MState × Events :=
  match o with
  | .notFound =>
      if s.lastJobsHash ≠ some JHash.empty then
        let s1 : MState :=
          { s with stats := ⟨0, 0, 0⟩
                   lastJobsHash := some JHash.empty
                   hasActiveJobs := false }
        (optimizeRefreshInterval s1,
         { noEvents with renderEmptyCalls := 1
                         statsPublished := some ⟨0, 0, 0⟩
                         rearmed := true })
      else (s, noEvents)
  | .ok jobs =>
      let fp := fingerprintOf jobs
      let hadActive := s.hasActiveJobs
      let hasActive := jobs.any isActive
      let s1 : MState := { s with hasActiveJobs := hasActive }
      let rendered : Bool := s1.lastJobsHash ≠ some (JHash.jobList fp)
      let s2 : MState :=
        if rendered then { s1 with lastJobsHash := some (JHash.jobList fp) } else s1
      let s3 : MState := { s2 with stats := statsOf jobs }
      let flip : Bool := hadActive != hasActive
      let s4 : MState := if flip then optimizeRefreshInterval s3 else s3
      (s4,
       { fetchStarted := false
         renderJobsCalls := if rendered then 1 else 0
         renderEmptyCalls := if rendered && jobs.isEmpty then 1 else 0
         statsPublished := some (statsOf jobs)
         rearmed := flip
         notified := false
         dbStatsRefreshed := jobs.any (fun j => j.status == some "completed") })
  | .httpError => (s, { noEvents with notified := true })
  | .netError => (s, { noEvents with notified := true })
  | .abortError => (s, noEvents)

/-- One complete invocation of `loadJobs` in which the started fetch runs
to completion with outcome `o`: guard check, try body, and the `finally`
that clears the guard on every exit path. -/
def pollStep (s : MState) (o : FetchOutcome) : MState × Events :=
  if s.isRefreshing then (s, noEvents)
  else
    let s1 : MState := { s with isRefreshing := true }
    let r := processOutcome s1 o
    ({ r.1 with isRefreshing := false }, { r.2 with fetchStarted := true })

/-- Run a sequence of complete polls, collecting the events of each. -/
def runPolls (s : MState) : List FetchOutcome → MState × List Events
  | [] => (s, [])
  | o :: os =>
      let r := pollStep s o
      let rest := runPolls r.1 os
      (rest.1, r.2 :: rest.2)

/-- Total number of `renderJobs` invocations in a trace. -/
def totalRenders (evs : List Events) : ℕ :=
  (evs.map Events.renderJobsCalls).sum

/-- Total number of `renderEmptyState` invocations in a trace. -/
def totalEmptyRenders (evs : List Events) : ℕ :=
  (evs.map Events.renderEmptyCalls).sum

/-! ## Fine-grained event model

`loadJobs` suspends only at the fetch boundary, so an invocation splits
into the synchronous prefix (guard check, fetch start) and the
continuation that runs when the fetch settles.  `Sys` tracks, on top of
the poller state, how many status-endpoint requests are outstanding. -/

/-- Poller state plus the number of outstanding status requests. -/
structure Sys where
  m : MState
  inFlight : ℕ
deriving DecidableEq, Repr

/-- Freshly constructed system: no request outstanding. -/
def sysInit : Sys := { m := initState, inFlight := 0 }

/-- Events of the cooperative loop: `loadJobs` being invoked (by the timer
or manually), the outstanding fetch settling, and `cleanup()`. -/
inductive Ev where
  | startLoad
  | finish (o : FetchOutcome)
  | dispose
deriving DecidableEq, Repr

/-- One event step.  On `startLoad` the guard either absorbs the call or a
request is issued; on `finish` the continuation of `loadJobs` runs — if
the controller was aborted while the request was pending, the fetch or the
body read rejects with `AbortError`, which replaces the transport outcome;
`dispose` runs `cleanup()`. -/
def sysStep (s : Sys) (e : Ev) : Sys × Events :=
  match e with
  | .startLoad =>
      if s.m.isRefreshing then (s, noEvents)
      else ({ m := { s.m with isRefreshing := true }, inFlight := s.inFlight + 1 },
            { noEvents with fetchStarted := true })
  | .finish o =>
      if s.inFlight = 0 then (s, noEvents)
      else
        let o2 := if s.m.aborted then FetchOutcome.abortError else o
        let r := processOutcome s.m o2
        ({ m := { r.1 with isRefreshing := false }, inFlight := s.inFlight - 1 },
         r.2)
  | .dispose => ({ m := cleanup s.m, inFlight := s.inFlight }, noEvents)

/-- Run a sequence of events. -/
def runSys (s : Sys) : List Ev → Sys
  | [] => s
  | e :: es => runSys (sysStep s e).1 es

/-- The guard invariant: a request is outstanding exactly while the
in-flight flag is set. -/
def GuardInv (s : Sys) : Prop :=
  s.inFlight = if s.m.isRefreshing then 1 else 0

instance (s : Sys) : Decidable (GuardInv s) := by
  unfold GuardInv; infer_instance

/-! ## Rendering (`renderJobs`, `renderJob`)

The HTML strings are abstracted to the semantically meaningful values
interpolated into them; the places where the JS would throw (property
access on `undefined`) are modelled as `Except.error`. -/

/-- The four recognised statuses of the `switch` in `renderJob`. -/
def knownStatuses : List String := ["running", "queued", "completed", "failed"]

/-- Whether a payload status hits one of the four `case` arms. -/
def isKnownStatus : Option String → Bool
  | some s => knownStatuses.contains s
  | none => false

/-- `statusOrder[status]` in the sort comparator: `undefined` (`none`) for
anything outside the four keys. -/
def statusOrder : Option String → Option ℤ
  | some "running" => some 0
  | some "queued" => some 1
  | some "completed" => some 2
  | some "failed" => some 3
  | _ => none

/-- The sort comparator `statusOrder[a.status] - statusOrder[b.status]`
as a not-greater test: when either lookup is `undefined` the subtraction
is `NaN`, which `Array.prototype.sort` treats as neither less nor greater
(so the pair keeps its relative order in the stable sort). -/
def jobLE (a b : Job) : Bool :=
  match statusOrder a.status, statusOrder b.status with
  | some x, some y => decide (x - y ≤ 0)
  | _, _ => true

/-- `jobs.sort(comparator)` — a stable sort by the comparator. -/
def sortJobs (jobs : List Job) : List Job :=
  jobs.mergeSort jobLE

/-- The display name of a progress stage:
`stageDescriptions[stage]`, with the fallback name `stage` when that
lookup misses, and In Corso when `stage` is itself the empty string. -/
def stageName (stage : String) : String :=
  if stage ∈ ["queued", "running", "download", "extract_audio", "stt",
      "parse_recipe", "embedding", "vectorizing", "ingesting", "indexing",
      "persisting", "done", "error"] then
    match stage with
    | "queued" => "In Coda"
    | "running" => "Elaborazione"
    | "download" => "Download"
    | "extract_audio" => "Estrazione Audio"
    | "stt" => "Riconoscimento Vocale"
    | "parse_recipe" => "Analisi Ricetta"
    | "embedding" => "Vettorizzazione"
    | "vectorizing" => "Embedding AI"
    | "ingesting" => "Ingest Database"
    | "indexing" => "Indicizzazione"
    | "persisting" => "Salvataggio"
    | "done" => "Completato"
    | _ => "Errore"
  else if stage = "" then "In Corso" else stage

/-- The values `renderJob` interpolates into its card. -/
structure RenderedJob where
  truncatedId : String
  statusText : String
  cardClass : String
  progressPercentShown : Option ℤ
  progressBarWidth : Option ℚ
  progressStageName : Option String
  progressCounts : Option (ℚ × ℚ × ℚ)
  urlsShown : ℕ
  resultIndexed : Option ℚ
  detailShown : Option String
deriving DecidableEq, Repr

/-- The `switch (status)` of `renderJob`: status text and card class, with
the `default` arm presenting the job as unknown (Sconosciuto). -/
def statusView (status : Option String) : String × String :=
  if status == some "running" then
    ("In Corso", "step-running border-l-4 border-l-oneui-blue")
  else if status == some "queued" then
    ("In Coda", "border-l-4 border-l-yellow-400")
  else if status == some "completed" then
    ("Completato", "step-completed border-l-4 border-l-green-500")
  else if status == some "failed" then
    ("Fallito", "step-failed border-l-4 border-l-red-500")
  else
    ("Sconosciuto", "border-l-4 border-l-gray-400")

/-- The total remainder of `renderJob` once `job_id` is known to be
present: destructuring with defaults (`progress_percent = 0`; inside
`progress`: `total = 0`, `success = 0`, `failed = 0`, `stage` defaults to
the empty string, `urls = []`; inside `result`: all counters default to
`0`), the status `switch`, and the optional progress / result / detail
sections. -/
def renderJobCore (job_id : String) (j : Job) : RenderedJob :=
  let progress_percent : ℚ := j.progress_percent.getD 0
  let truncatedId := job_id.take 8
  let st := statusView j.status
  let prog :=
    match j.progress with
    | none => (none, none, none, none, 0)
    | some p =>
        let stage := p.stage.getD ""
        let urls := p.urls.getD []
        let shown :=
          if j.status == some "running" && !urls.isEmpty then
            min urls.length 10
          else 0
        (some (mathRound progress_percent),
         some (clamp100 progress_percent),
         some (stageName stage),
         some (p.total.getD 0, p.success.getD 0, p.failed.getD 0),
         shown)
  let resultIndexed :=
    match j.result with
    | none => none
    | some r => some (r.indexed.getD 0)
  let detailShown :=
    match j.detail with
    | some d => if j.status == some "failed" then some d else none
    | none => none
  { truncatedId := truncatedId
    statusText := st.1
    cardClass := st.2
    progressPercentShown := prog.1
    progressBarWidth := prog.2.1
    progressStageName := prog.2.2.1
    progressCounts := prog.2.2.2.1
    urlsShown := prog.2.2.2.2
    resultIndexed := resultIndexed
    detailShown := detailShown }

/-- `renderJob`: its first statement, `job_id.substring(0, 8)`, throws a
`TypeError` when `job_id` is `undefined`; otherwise the body is total. -/
def renderJob (j : Job) : Except String RenderedJob :=
  match j.job_id with
  | none => Except.error "TypeError: cannot read substring of undefined"
  | some job_id => Except.ok (renderJobCore job_id j)

/-- `sortedJobs.map(job => this.renderJob(job))`: each call may throw, and
the first thrown `TypeError` aborts the mapping. -/
def renderAll : List Job → Except String (List RenderedJob)
  | [] => Except.ok []
  | j :: js =>
      match renderJob j, renderAll js with
      | Except.ok r, Except.ok rs => Except.ok (r :: rs)
      | Except.error e, _ => Except.error e
      | Except.ok _, Except.error e => Except.error e

/-- `renderJobs`: empty input renders the empty state (no job cards);
otherwise sort and render each job. -/
def renderJobs (jobs : List Job) : Except String (List RenderedJob) :=
  if jobs.isEmpty then Except.ok []
  else renderAll (sortJobs jobs)

end ImportManager

namespace ImportManager

/-! ## Theorems -/

theorem validateUrls_foldl (l : List String) (a b : List String) :
    l.foldl
      (fun acc url =>
        if isValidUrl url then (acc.1 ++ [url], acc.2) else (acc.1, acc.2 ++ [url]))
      (a, b)
    = (a ++ l.filter isValidUrl, b ++ l.filter (fun u => !isValidUrl u)) := by
  induction l generalizing a b with
  | nil => simp
  | cons x xs ih =>
      by_cases hx : isValidUrl x = true
      · simp [List.filter_cons, hx, ih]
      · simp only [Bool.not_eq_true] at hx
        simp [List.filter_cons, hx, ih]

theorem validateUrls_eq (urls : List String) :
    validateUrls urls
      = (urls.filter isValidUrl, urls.filter (fun u => !isValidUrl u)) := by
  simpa [validateUrls] using validateUrls_foldl urls [] []

theorem count_filter_split (p : String → Bool) (l : List String) (u : String) :
    (l.filter p).count u + (l.filter (fun x => !p x)).count u = l.count u := by
  induction l with
  | nil => simp
  | cons x xs ih =>
      by_cases hp : p x = true
      · rw [List.filter_cons_of_pos hp, List.filter_cons_of_neg (by simp [hp])]
        by_cases hu : u = x
        · subst hu
          rw [List.count_cons_self, List.count_cons_self]
          omega
        · rw [List.count_cons_of_ne hu, List.count_cons_of_ne hu]
          exact ih
      · rw [List.filter_cons_of_neg (by simpa using hp),
          List.filter_cons_of_pos (by simp [hp])]
        by_cases hu : u = x
        · subst hu
          rw [List.count_cons_self, List.count_cons_self]
          omega
        · rw [List.count_cons_of_ne hu, List.count_cons_of_ne hu]
          exact ih

end ImportManager

namespace ImportManager

/-- C10: `validateUrls` partitions its input: its two output lists are the
order-preserving filters of the input by the supported-domain test (a
lower-cased substring match against the six supported domains), every
input URL lands in exactly one of the two lists (with multiplicity),
membership in `valid` is equivalent to the domain test succeeding, and
`handleSubmit` only ever passes the `valid` list to the ingest endpoint. -/
theorem C10_validateUrls_partition :
    (∀ urls : List String,
      (validateUrls urls).1 = urls.filter isValidUrl
      ∧ (validateUrls urls).2 = urls.filter (fun u => !isValidUrl u)
      ∧ (∀ u, (validateUrls urls).1.count u + (validateUrls urls).2.count u
            = urls.count u)
      ∧ (∀ u ∈ urls, (u ∈ (validateUrls urls).1 ↔ isValidUrl u = true)
          ∧ (u ∈ (validateUrls urls).2 ↔ isValidUrl u = false)))
    ∧ (∀ (urls l : List String), handleSubmitSubmitted urls = some l →
        l = (validateUrls urls).1) := by
  constructor
  · intro urls
    rw [validateUrls_eq]
    refine ⟨rfl, rfl, fun u => count_filter_split _ _ _, fun u hu => ?_⟩
    constructor
    · simp [List.mem_filter, hu]
    · simp [List.mem_filter, hu]
  · intro urls l h
    by_cases h1 : urls.isEmpty
    · simp [handleSubmitSubmitted, h1] at h
    · by_cases h2 : (validateUrls urls).1.isEmpty
      · simp [handleSubmitSubmitted, h1, h2] at h
      · simp [handleSubmitSubmitted, h1, h2] at h
        exact h.symm

/-- C10 witness: the partition theorem applied to a concrete two-URL
input, one supported (after case folding) and one not. -/
theorem C10_witness :
    handleSubmitSubmitted ["https://YouTu.be/abc", "https://example.com/x"]
      = some ["https://YouTu.be/abc"]
    ∧ ["https://YouTu.be/abc"]
      = (validateUrls ["https://YouTu.be/abc", "https://example.com/x"]).1
    ∧ ("https://YouTu.be/abc"
        ∈ (validateUrls ["https://YouTu.be/abc", "https://example.com/x"]).1
      ↔ isValidUrl "https://YouTu.be/abc" = true) := by
  refine ⟨by decide, ?_, ?_⟩
  · exact C10_validateUrls_partition.2
      ["https://YouTu.be/abc", "https://example.com/x"] ["https://YouTu.be/abc"]
      (by decide)
  · exact ((C10_validateUrls_partition.1
      ["https://YouTu.be/abc", "https://example.com/x"]).2.2.2
      "https://YouTu.be/abc" (by decide)).1

end ImportManager

namespace ImportManager

theorem pollStep_ok_spec (s : MState) (jobs : List Job)
    (h : s.isRefreshing = false) :
    (pollStep s (FetchOutcome.ok jobs)).1.lastJobsHash
        = some (JHash.jobList (fingerprintOf jobs))
    ∧ (pollStep s (FetchOutcome.ok jobs)).1.isRefreshing = false
    ∧ (pollStep s (FetchOutcome.ok jobs)).2.renderJobsCalls
        = (if s.lastJobsHash = some (JHash.jobList (fingerprintOf jobs))
            then 0 else 1) := by
  by_cases hh : s.lastJobsHash = some (JHash.jobList (fingerprintOf jobs))
  · simp [pollStep, processOutcome, h, hh, optimizeRefreshInterval,
      apply_ite MState.lastJobsHash, apply_ite MState.isRefreshing]
  · simp [pollStep, processOutcome, h, hh, optimizeRefreshInterval,
      apply_ite MState.lastJobsHash, apply_ite MState.isRefreshing]

end ImportManager

namespace ImportManager

theorem runPolls_same_fp_zero (fp : List FpEntry) (os : List FetchOutcome) :
    ∀ s : MState, s.isRefreshing = false →
      s.lastJobsHash = some (JHash.jobList fp) →
      (∀ o ∈ os, ∃ jobs, o = FetchOutcome.ok jobs ∧ fingerprintOf jobs = fp) →
      totalRenders (runPolls s os).2 = 0 := by
  induction os with
  | nil => intro s _ _ _; simp [runPolls, totalRenders]
  | cons o os ih =>
      intro s h hfp hall
      obtain ⟨jobs, rfl, hjfp⟩ := hall o (by simp)
      have hspec := pollStep_ok_spec s jobs h
      rw [hjfp] at hspec
      have hz : (pollStep s (FetchOutcome.ok jobs)).2.renderJobsCalls = 0 := by
        rw [hspec.2.2, if_pos hfp]
      simp only [runPolls, totalRenders, List.map_cons, List.sum_cons]
      rw [hz]
      have := ih (pollStep s (FetchOutcome.ok jobs)).1 hspec.2.1
        hspec.1 (fun o ho => hall o (by simp [ho]))
      simpa [totalRenders] using this

end ImportManager

namespace ImportManager

/-- C1: idempotent render law.  Over any sequence of successful polls whose
job lists all share one projection `fp` (job id, status, progress percent,
stage per job), `renderJobs` is invoked exactly once when the stored
fingerprint differs from `fp` at the start (on the first poll) and zero
times otherwise; every poll after the first invokes it zero times. -/
theorem C1_idempotent_render (s : MState) (fp : List FpEntry)
    (os : List FetchOutcome) (h : s.isRefreshing = false)
    (hall : ∀ o ∈ os, ∃ jobs, o = FetchOutcome.ok jobs ∧ fingerprintOf jobs = fp) :
    totalRenders (runPolls s os).2
      = (if os = [] ∨ s.lastJobsHash = some (JHash.jobList fp) then 0 else 1)
    ∧ (∀ ev ∈ (runPolls s os).2.tail, ev.renderJobsCalls = 0) := by
  cases os with
  | nil => simp [runPolls, totalRenders]
  | cons o os =>
      obtain ⟨jobs, rfl, hjfp⟩ := hall o (List.mem_cons_self o os)
      have hspec := pollStep_ok_spec s jobs h
      rw [hjfp] at hspec
      have hrest := runPolls_same_fp_zero fp os (pollStep s (FetchOutcome.ok jobs)).1
        hspec.2.1 hspec.1 (fun o ho => hall o (by simp [ho]))
      constructor
      · simp only [runPolls, totalRenders, List.map_cons, List.sum_cons]
        rw [hspec.2.2]
        simp only [totalRenders] at hrest
        rw [hrest]
        by_cases hh : s.lastJobsHash = some (JHash.jobList fp) <;> simp [hh]
      · intro ev hev
        simp only [runPolls, List.tail_cons] at hev
        simp only [totalRenders] at hrest
        have := List.sum_eq_zero_iff.mp hrest
        exact this _ (List.mem_map_of_mem _ hev)

end ImportManager

namespace ImportManager

/-- A concrete running job used in the C1 witness. -/
def jobC1 : Job :=
  { job_id := some "a"
    status := some "running"
    progress_percent := some 10
    progress := none
    result := none
    detail := none }

/-- C1 witness: two successful polls returning the same one-job projection,
starting from the initial state, render exactly once. -/
theorem C1_witness :
    totalRenders
      (runPolls initState
        [FetchOutcome.ok [jobC1], FetchOutcome.ok [jobC1]]).2 = 1 := by
  have h := C1_idempotent_render initState (fingerprintOf [jobC1])
    [FetchOutcome.ok [jobC1], FetchOutcome.ok [jobC1]] rfl ?hall
  case hall =>
    intro o ho
    simp only [List.mem_cons, List.not_mem_nil, or_false] at ho
    rcases ho with rfl | rfl
    · exact ⟨_, rfl, rfl⟩
    · exact ⟨_, rfl, rfl⟩
  rw [h.1]
  simp [initState]

theorem guardInv_step (s : Sys) (e : Ev) (he : e ≠ Ev.dispose)
    (h : GuardInv s) : GuardInv (sysStep s e).1 := by
  cases e with
  | dispose => exact absurd rfl he
  | startLoad =>
      unfold GuardInv at *
      by_cases hr : s.m.isRefreshing = true
      · simpa [sysStep, hr] using h
      · simp only [Bool.not_eq_true] at hr
        simp only [hr, if_neg] at h
        simp [sysStep, hr, h]
  | finish o =>
      unfold GuardInv at *
      by_cases h0 : s.inFlight = 0
      · simpa [sysStep, h0] using h
      · simp only [sysStep, h0, if_neg]
        split at h <;> simp_all

end ImportManager

namespace ImportManager

/-- C2: mutual exclusion.  Along any dispose-free trace from a state
satisfying the guard invariant, the invariant is preserved and at most one
status request is in flight at any time; invoking `loadJobs` while the
guard is set is a complete no-op that starts no fetch; and on every
completion path of a started fetch (success, failure, or cancellation)
the guard flag ends cleared. -/
theorem C2_mutual_exclusion :
    (∀ (s : Sys) (es : List Ev), GuardInv s → (∀ e ∈ es, e ≠ Ev.dispose) →
        GuardInv (runSys s es) ∧ (runSys s es).inFlight ≤ 1)
    ∧ (∀ s : Sys, s.m.isRefreshing = true →
        sysStep s Ev.startLoad = (s, noEvents))
    ∧ (∀ (s : Sys) (o : FetchOutcome), s.inFlight ≠ 0 →
        (sysStep s (Ev.finish o)).1.m.isRefreshing = false) := by
  refine ⟨?_, ?_, ?_⟩
  · intro s es
    induction es generalizing s with
    | nil =>
        intro h _
        refine ⟨h, ?_⟩
        unfold GuardInv at h
        rw [show runSys s [] = s from rfl, h]
        split <;> omega
    | cons e es ih =>
        intro h hd
        have h1 := guardInv_step s e (hd e (by simp)) h
        have h2 := ih (sysStep s e).1 h1 (fun e2 he2 => hd e2 (by simp [he2]))
        simpa [runSys] using h2
  · intro s hr
    simp [sysStep, hr]
  · intro s o h0
    simp [sysStep, h0]

/-- C2 witness: the theorem applied to the freshly constructed system and a
concrete trace in which the timer fires again while a fetch is pending. -/
theorem C2_witness :
    GuardInv (runSys sysInit
      [Ev.startLoad, Ev.startLoad, Ev.finish (FetchOutcome.ok []), Ev.startLoad])
    ∧ (runSys sysInit
      [Ev.startLoad, Ev.startLoad, Ev.finish (FetchOutcome.ok []),
        Ev.startLoad]).inFlight ≤ 1 :=
  C2_mutual_exclusion.1 sysInit
    [Ev.startLoad, Ev.startLoad, Ev.finish (FetchOutcome.ok []), Ev.startLoad]
    (by decide) (by decide)

end ImportManager

namespace ImportManager

theorem processOutcome_ok_fields (s : MState) (jobs : List Job) :
    (processOutcome s (FetchOutcome.ok jobs)).1.timer
      = (if s.hasActiveJobs != jobs.any isActive
          then some (if jobs.any isActive then fastInterval else slowInterval)
          else s.timer)
    ∧ (processOutcome s (FetchOutcome.ok jobs)).1.hasActiveJobs
        = jobs.any isActive
    ∧ (processOutcome s (FetchOutcome.ok jobs)).2.rearmed
        = (s.hasActiveJobs != jobs.any isActive)
    ∧ (processOutcome s (FetchOutcome.ok jobs)).1.stats = statsOf jobs
    ∧ (processOutcome s (FetchOutcome.ok jobs)).2.statsPublished
        = some (statsOf jobs)
    ∧ (processOutcome s (FetchOutcome.ok jobs)).1.isRefreshing = s.isRefreshing
    ∧ (processOutcome s (FetchOutcome.ok jobs)).1.aborted = s.aborted
    ∧ (processOutcome s (FetchOutcome.ok jobs)).1.lastJobsHash
        = some (JHash.jobList (fingerprintOf jobs)) := by
  cases hb : s.hasActiveJobs <;> cases ha : jobs.any isActive <;>
    by_cases hh : s.lastJobsHash = some (JHash.jobList (fingerprintOf jobs)) <;>
      simp [processOutcome, optimizeRefreshInterval, hb, ha, hh]

end ImportManager

namespace ImportManager

theorem processOutcome_notFound_fields (s : MState) :
    (if s.lastJobsHash = some JHash.empty then
      (processOutcome s FetchOutcome.notFound) = (s, noEvents)
    else
      (processOutcome s FetchOutcome.notFound).1
          = { s with stats := ⟨0, 0, 0⟩
                     lastJobsHash := some JHash.empty
                     hasActiveJobs := false
                     timer := some slowInterval }
        ∧ (processOutcome s FetchOutcome.notFound).2
          = { noEvents with renderEmptyCalls := 1
                            statsPublished := some ⟨0, 0, 0⟩
                            rearmed := true }) := by
  by_cases hh : s.lastJobsHash = some JHash.empty <;>
    simp [processOutcome, optimizeRefreshInterval, hh]

theorem processOutcome_error_fields (s : MState) :
    processOutcome s FetchOutcome.httpError
        = (s, { noEvents with notified := true })
    ∧ processOutcome s FetchOutcome.netError
        = (s, { noEvents with notified := true })
    ∧ processOutcome s FetchOutcome.abortError = (s, noEvents) := by
  refine ⟨rfl, rfl, rfl⟩

end ImportManager

namespace ImportManager

/-- The cadence invariant: the armed timer period matches the activity
flag, and the empty fingerprint marker implies no active jobs (the 404
branch writes them together; the success branch overwrites the marker). -/
def InvC3 (s : MState) : Prop :=
  s.timer = some (if s.hasActiveJobs then fastInterval else slowInterval)
  ∧ (s.lastJobsHash = some JHash.empty → s.hasActiveJobs = false)

/-- C3 counterexample: from the armed initial state (no active jobs, slow
cadence, no stored fingerprint), a first 404 poll re-arms the timer
(`optimizeRefreshInterval` runs) even though the active/inactive predicate
did not flip — it is false both before and after the poll.  This refutes
the claim that the timer is re-armed only when the predicate flips. -/
theorem C3_counterexample :
    (optimizeRefreshInterval initState).hasActiveJobs = false
    ∧ (pollStep (optimizeRefreshInterval initState)
        FetchOutcome.notFound).1.hasActiveJobs = false
    ∧ (pollStep (optimizeRefreshInterval initState)
        FetchOutcome.notFound).2.rearmed = true := by
  decide

/-- C3 amended: after a successful poll with at least one running/queued
job the armed timer period is the fast interval, after a successful poll
with an all-terminal or empty job set — and after any 404 poll — it is the
slow interval; and the timer is re-armed exactly when the activity
predicate flips between consecutive polls or when a 404 poll first stores
the empty fingerprint marker (never on a poll that changes neither). -/
theorem C3_cadence_amended (s : MState) (h : s.isRefreshing = false)
    (hinv : InvC3 s) :
    (∀ jobs, (pollStep s (FetchOutcome.ok jobs)).1.timer
        = some (if jobs.any isActive then fastInterval else slowInterval))
    ∧ ((pollStep s FetchOutcome.notFound).1.timer = some slowInterval)
    ∧ (∀ jobs, (pollStep s (FetchOutcome.ok jobs)).2.rearmed
        = (s.hasActiveJobs != jobs.any isActive))
    ∧ ((pollStep s FetchOutcome.notFound).2.rearmed
        = decide (s.lastJobsHash ≠ some JHash.empty))
    ∧ (∀ o, InvC3 (pollStep s o).1) := by
  obtain ⟨ht, hhe⟩ := hinv
  have hnf := processOutcome_notFound_fields { s with isRefreshing := true }
  refine ⟨?_, ?_, ?_, ?_, ?_⟩
  · intro jobs
    obtain ⟨hft, hfa, hfr, hfs, hfp, hfi, hfab, hfh⟩ :=
      processOutcome_ok_fields { s with isRefreshing := true } jobs
    simp only [pollStep, h, Bool.false_eq_true, if_false]
    cases hb : s.hasActiveJobs <;> cases ha : jobs.any isActive <;> simp_all
  · by_cases hh : s.lastJobsHash = some JHash.empty
    · rw [if_pos (by simpa using hh)] at hnf
      have hb := hhe hh
      simp only [pollStep, h, Bool.false_eq_true, if_false, hnf]
      simp_all
    · rw [if_neg (by simpa using hh)] at hnf
      simp only [pollStep, h, Bool.false_eq_true, if_false, hnf.1]
  · intro jobs
    obtain ⟨hft, hfa, hfr, hfs, hfp, hfi, hfab, hfh⟩ :=
      processOutcome_ok_fields { s with isRefreshing := true } jobs
    simp only [pollStep, h, Bool.false_eq_true, if_false]
    cases hb : s.hasActiveJobs <;> cases ha : jobs.any isActive <;> simp_all
  · by_cases hh : s.lastJobsHash = some JHash.empty
    · rw [if_pos (by simpa using hh)] at hnf
      simp only [pollStep, h, Bool.false_eq_true, if_false]
      rw [hnf]
      simp [noEvents, hh]
    · rw [if_neg (by simpa using hh)] at hnf
      simp only [pollStep, h, Bool.false_eq_true, if_false]
      rw [hnf.2]
      simp [noEvents, hh]
  · intro o
    cases o with
    | ok jobs =>
        obtain ⟨hft, hfa, hfr, hfs, hfp, hfi, hfab, hfh⟩ :=
          processOutcome_ok_fields { s with isRefreshing := true } jobs
        constructor
        · simp only [pollStep, h, Bool.false_eq_true, if_false]
          cases hb : s.hasActiveJobs <;> cases ha : jobs.any isActive <;>
            simp_all
        · simp only [pollStep, h, Bool.false_eq_true, if_false]
          intro hcontra
          simp_all
    | notFound =>
        by_cases hh : s.lastJobsHash = some JHash.empty
        · rw [if_pos (by simpa using hh)] at hnf
          have hb := hhe hh
          constructor <;>
            simp_all [pollStep, h]
        · rw [if_neg (by simpa using hh)] at hnf
          constructor
          · simp only [pollStep, h, Bool.false_eq_true, if_false]
            rw [hnf.1]
            simp
          · simp only [pollStep, h, Bool.false_eq_true, if_false]
            rw [hnf.1]
            simp
    | httpError =>
        refine ⟨?_, fun hx => ?_⟩ <;> simp_all [pollStep, processOutcome, h]
    | netError =>
        refine ⟨?_, fun hx => ?_⟩ <;> simp_all [pollStep, processOutcome, h]
    | abortError =>
        refine ⟨?_, fun hx => ?_⟩ <;> simp_all [pollStep, processOutcome, h]

end ImportManager

namespace ImportManager

/-- C3 witness: the amended cadence theorem applied to the armed initial
state and a concrete poll returning one running job. -/
theorem C3_witness :
    (pollStep (optimizeRefreshInterval initState)
        (FetchOutcome.ok [jobC1])).1.timer = some fastInterval := by
  have h := (C3_cadence_amended (optimizeRefreshInterval initState) rfl
    ⟨by decide, fun hx => absurd hx (by decide)⟩).1 [jobC1]
  rw [h]
  decide

/-- A job whose raw progress percent is one quarter; stage download. -/
def jobFpA : Job :=
  { job_id := some "a"
    status := some "running"
    progress_percent := some (1/4)
    progress := some { total := some 1, success := some 0, failed := some 0,
                       stage := some "download", urls := none }
    result := none
    detail := none }

/-- The same job with raw progress three eighths: same rounded value. -/
def jobFpB : Job := { jobFpA with progress_percent := some (3/8) }

/-- C4 counterexample: two single-job lists agreeing on identifier, status,
ROUNDED progress percentage and stage, yet with different fingerprints:
the fingerprint uses the raw `progress_percent` (rounding happens only in
`renderJob`), so lists that agree merely on the rounded value can still
hash differently. -/
theorem C4_counterexample :
    jobFpA.job_id = jobFpB.job_id
    ∧ jobFpA.status = jobFpB.status
    ∧ mathRound (jobFpA.progress_percent.getD 0)
        = mathRound (jobFpB.progress_percent.getD 0)
    ∧ jobFpA.progress.bind Progress.stage = jobFpB.progress.bind Progress.stage
    ∧ fingerprintOf [jobFpA] ≠ fingerprintOf [jobFpB] := by
  refine ⟨rfl, rfl, ?_, rfl, ?_⟩
  · norm_num [mathRound, jobFpA, jobFpB]
  · intro hcontra
    simp [fingerprintOf, projJob, jobFpA, jobFpB, FpEntry.mk.injEq] at hcontra
    norm_num at hcontra

/-- C4 amended: the fingerprint is computed over exactly the four raw
fields — identifier, status, raw (unrounded) progress percent, and stage:
two job lists agreeing pointwise on those four fields, whatever their
other fields contain, have equal fingerprints. -/
theorem C4_fingerprint_amended (jobs jobs2 : List Job)
    (hlen : jobs.length = jobs2.length)
    (hag : ∀ (i : ℕ) (hi : i < jobs.length) (hi2 : i < jobs2.length),
        (jobs.get ⟨i, hi⟩).job_id = (jobs2.get ⟨i, hi2⟩).job_id
        ∧ (jobs.get ⟨i, hi⟩).status = (jobs2.get ⟨i, hi2⟩).status
        ∧ (jobs.get ⟨i, hi⟩).progress_percent
            = (jobs2.get ⟨i, hi2⟩).progress_percent
        ∧ (jobs.get ⟨i, hi⟩).progress.bind Progress.stage
            = (jobs2.get ⟨i, hi2⟩).progress.bind Progress.stage) :
    fingerprintOf jobs = fingerprintOf jobs2 := by
  apply List.ext_get (by simpa [fingerprintOf] using hlen)
  intro n h1 h2
  simp only [fingerprintOf, List.getElem_map]
  obtain ⟨e1, e2, e3, e4⟩ := hag n (by simpa [fingerprintOf] using h1)
    (by simpa [fingerprintOf] using h2)
  simp only [List.get_eq_getElem] at e1 e2 e3 e4
  simp [projJob, FpEntry.mk.injEq, e1, e2, e3, e4]

/-- The quarter-progress job with an extra failure detail. -/
def jobFpC : Job := { jobFpA with detail := some "boom" }

/-- The quarter-progress job with an extra result record. -/
def jobFpD : Job :=
  { jobFpA with result := some { indexed := some 3, total_urls := some 1,
                                 success := some 1, failed := some 0 } }

/-- C4 witness: two concrete lists differing only outside the projection
(detail and result) have equal fingerprints. -/
theorem C4_witness : fingerprintOf [jobFpC] = fingerprintOf [jobFpD] := by
  apply C4_fingerprint_amended [jobFpC] [jobFpD] rfl
  intro i hi hi2
  have hz : i = 0 := by simpa using hi
  subst hz
  exact ⟨rfl, rfl, rfl, rfl⟩

end ImportManager

namespace ImportManager

/-- C5: a 404 response is handled as the empty job set and never produces
an error notification (for any start state), and the empty-state render is
fingerprint-gated: two consecutive 404 polls from a state not already
showing the empty state render it exactly once — on the first poll, with
the second poll rendering nothing. -/
theorem C5_empty_set (s : MState) (h : s.isRefreshing = false)
    (h2 : s.lastJobsHash ≠ some JHash.empty) :
    ((runPolls s [FetchOutcome.notFound, FetchOutcome.notFound]).2.map
        Events.renderEmptyCalls) = [1, 0]
    ∧ totalEmptyRenders
        (runPolls s [FetchOutcome.notFound, FetchOutcome.notFound]).2 = 1
    ∧ (∀ t : MState, (pollStep t FetchOutcome.notFound).2.notified = false) := by
  refine ⟨?_, ?_, ?_⟩
  · simp [runPolls, pollStep, processOutcome, h, h2, optimizeRefreshInterval,
      noEvents]
  · simp [runPolls, totalEmptyRenders, pollStep, processOutcome, h, h2,
      optimizeRefreshInterval, noEvents]
  · intro t
    by_cases ht : t.isRefreshing = true
    · simp [pollStep, ht, noEvents]
    · simp only [Bool.not_eq_true] at ht
      by_cases hh : t.lastJobsHash = some JHash.empty <;>
        simp [pollStep, processOutcome, ht, hh, optimizeRefreshInterval,
          noEvents]

/-- C5 witness: the theorem applied to the freshly constructed state. -/
theorem C5_witness :
    ((runPolls initState [FetchOutcome.notFound, FetchOutcome.notFound]).2.map
        Events.renderEmptyCalls) = [1, 0] :=
  (C5_empty_set initState rfl (by decide)).1

end ImportManager

namespace ImportManager

/-- The counters invariant: whenever the stored fingerprint is the empty
marker, the published counters are all zero (the 404 branch writes both in
the same gated block). -/
def InvC6 (s : MState) : Prop :=
  s.lastJobsHash = some JHash.empty → s.stats = ⟨0, 0, 0⟩

/-- C6: counter liveness.  On every successful poll the published counters
equal the per-status counts of that poll's snapshot: the success path
publishes `statsOf jobs` unconditionally — in particular also when the
fingerprint is unchanged and `renderJobs` is not invoked — and the 404
path leaves the counters equal to the empty snapshot's counts (re-zeroing
them on the first 404, and keeping them zero — the invariant — on
repeats). -/
theorem C6_counter_liveness (s : MState) (h : s.isRefreshing = false)
    (hinv : InvC6 s) :
    (∀ jobs, (pollStep s (FetchOutcome.ok jobs)).1.stats = statsOf jobs
        ∧ (pollStep s (FetchOutcome.ok jobs)).2.statsPublished
            = some (statsOf jobs))
    ∧ (∀ jobs, s.lastJobsHash = some (JHash.jobList (fingerprintOf jobs)) →
        (pollStep s (FetchOutcome.ok jobs)).2.renderJobsCalls = 0
        ∧ (pollStep s (FetchOutcome.ok jobs)).2.statsPublished
            = some (statsOf jobs))
    ∧ ((pollStep s FetchOutcome.notFound).1.stats = statsOf [])
    ∧ (∀ o, InvC6 (pollStep s o).1) := by
  have hnf := processOutcome_notFound_fields { s with isRefreshing := true }
  refine ⟨?_, ?_, ?_, ?_⟩
  · intro jobs
    obtain ⟨hft, hfa, hfr, hfs, hfp, hfi, hfab, hfh⟩ :=
      processOutcome_ok_fields { s with isRefreshing := true } jobs
    simp only [pollStep, h, Bool.false_eq_true, if_false]
    exact ⟨by simpa using hfs, by simpa using hfp⟩
  · intro jobs hfp0
    have hspec := pollStep_ok_spec s jobs h
    obtain ⟨hft, hfa, hfr, hfs, hfp, hfi, hfab, hfh⟩ :=
      processOutcome_ok_fields { s with isRefreshing := true } jobs
    refine ⟨by rw [hspec.2.2, if_pos hfp0], ?_⟩
    simp only [pollStep, h, Bool.false_eq_true, if_false]
    simpa using hfp
  · by_cases hh : s.lastJobsHash = some JHash.empty
    · rw [if_pos (by simpa using hh)] at hnf
      simp only [pollStep, h, Bool.false_eq_true, if_false]
      rw [hnf]
      simpa [statsOf] using hinv hh
    · rw [if_neg (by simpa using hh)] at hnf
      simp only [pollStep, h, Bool.false_eq_true, if_false]
      rw [hnf.1]
      simp [statsOf]
  · intro o
    cases o with
    | ok jobs =>
        obtain ⟨hft, hfa, hfr, hfs, hfp, hfi, hfab, hfh⟩ :=
          processOutcome_ok_fields { s with isRefreshing := true } jobs
        intro hcontra
        simp only [pollStep, h, Bool.false_eq_true, if_false] at hcontra
        simp only [hfh] at hcontra
        exact absurd hcontra (by simp)
    | notFound =>
        by_cases hh : s.lastJobsHash = some JHash.empty
        · rw [if_pos (by simpa using hh)] at hnf
          intro hcontra
          simp only [pollStep, h, Bool.false_eq_true, if_false] at *
          rw [hnf]
          simpa using hinv hh
        · rw [if_neg (by simpa using hh)] at hnf
          intro hcontra
          simp only [pollStep, h, Bool.false_eq_true, if_false] at *
          rw [hnf.1]
    | httpError =>
        intro hcontra
        simp only [pollStep, processOutcome, h, Bool.false_eq_true,
          if_false] at *
        exact hinv hcontra
    | netError =>
        intro hcontra
        simp only [pollStep, processOutcome, h, Bool.false_eq_true,
          if_false] at *
        exact hinv hcontra
    | abortError =>
        intro hcontra
        simp only [pollStep, processOutcome, h, Bool.false_eq_true,
          if_false] at *
        exact hinv hcontra

end ImportManager

namespace ImportManager

/-- The initial state with the fingerprint of the one-running-job snapshot
already stored (as after a first successful poll). -/
def stateC6 : MState :=
  { initState with lastJobsHash := some (JHash.jobList (fingerprintOf [jobC1])) }

/-- C6 witness: a poll whose fingerprint is already stored invokes no
render yet still publishes the snapshot counters. -/
theorem C6_witness :
    (pollStep stateC6 (FetchOutcome.ok [jobC1])).2.renderJobsCalls = 0
    ∧ (pollStep stateC6 (FetchOutcome.ok [jobC1])).2.statsPublished
        = some (statsOf [jobC1]) :=
  (C6_counter_liveness stateC6 rfl
    (fun hx => absurd hx (by decide))).2.1 [jobC1] rfl

/-- C7 counterexample: `cleanup` does not reset the active-jobs flag: from
a state where the flag is `true` it survives disposal unchanged, while its
constructor-assigned initial value is `false`.  This refutes the part of
the claim stating that all internal mutable state — fingerprint, active-
jobs flag, and guard flag — is reset to its initial value. -/
theorem C7_counterexample :
    initState.hasActiveJobs = false
    ∧ (cleanup { initState with hasActiveJobs := true }).hasActiveJobs
        = true := by
  decide

/-- C7 amended: after `cleanup` the timer is disarmed and stays disarmed
under any further events (the aborted controller turns every late fetch
settlement into `AbortError`, whose handler arms nothing and renders
nothing), any late response is discarded without rendering, notifying,
re-arming or touching stored state, the guard ends cleared, and the
fingerprint and guard flag are reset to their initial values; the
active-jobs flag is left unchanged by `cleanup`. -/
theorem C7_disposal_amended :
    (∀ m : MState, (cleanup m).timer = none
        ∧ (cleanup m).isRefreshing = initState.isRefreshing
        ∧ (cleanup m).lastJobsHash = initState.lastJobsHash
        ∧ (cleanup m).aborted = true
        ∧ (cleanup m).hasActiveJobs = m.hasActiveJobs)
    ∧ (∀ (s : Sys) (o : FetchOutcome), s.m.aborted = true →
        (sysStep s (Ev.finish o)).2.renderJobsCalls = 0
        ∧ (sysStep s (Ev.finish o)).2.renderEmptyCalls = 0
        ∧ (sysStep s (Ev.finish o)).2.notified = false
        ∧ (sysStep s (Ev.finish o)).2.rearmed = false
        ∧ (sysStep s (Ev.finish o)).1.m.timer = s.m.timer
        ∧ (sysStep s (Ev.finish o)).1.m.lastJobsHash = s.m.lastJobsHash
        ∧ (sysStep s (Ev.finish o)).1.m.stats = s.m.stats
        ∧ (s.inFlight ≠ 0 →
            (sysStep s (Ev.finish o)).1.m.isRefreshing = false))
    ∧ (∀ (s : Sys) (es : List Ev), s.m.aborted = true → s.m.timer = none →
        (runSys s es).m.aborted = true ∧ (runSys s es).m.timer = none) := by
  refine ⟨?_, ?_, ?_⟩
  · intro m
    exact ⟨rfl, rfl, rfl, rfl, rfl⟩
  · intro s o hab
    by_cases h0 : s.inFlight = 0
    · simp [sysStep, h0, noEvents]
    · simp [sysStep, h0, hab, processOutcome, noEvents]
  · intro s es
    induction es generalizing s with
    | nil => intro hab ht; exact ⟨hab, ht⟩
    | cons e es ih =>
        intro hab ht
        have hstep : (sysStep s e).1.m.aborted = true
            ∧ (sysStep s e).1.m.timer = none := by
          cases e with
          | startLoad =>
              by_cases hr : s.m.isRefreshing = true <;>
                simp [sysStep, hr, hab, ht]
          | finish o =>
              by_cases h0 : s.inFlight = 0
              · simp [sysStep, h0, hab, ht]
              · simp [sysStep, h0, hab, processOutcome, ht]
          | dispose => simp [sysStep, cleanup, ht]
        have hrec := ih (sysStep s e).1 hstep.1 hstep.2
        simpa [runSys] using hrec

/-- C7 witness: the amended theorem applied to a disposed system with one
request still pending, followed by its late settlement and a stray timer
fire: the timer stays disarmed. -/
theorem C7_witness :
    (runSys { m := cleanup initState, inFlight := 1 }
        [Ev.finish (FetchOutcome.ok [jobC1]), Ev.startLoad]).m.aborted = true
    ∧ (runSys { m := cleanup initState, inFlight := 1 }
        [Ev.finish (FetchOutcome.ok [jobC1]), Ev.startLoad]).m.timer = none :=
  C7_disposal_amended.2.2 { m := cleanup initState, inFlight := 1 }
    [Ev.finish (FetchOutcome.ok [jobC1]), Ev.startLoad] (by decide) (by decide)

end ImportManager

namespace ImportManager

/-- C8: error propagation and atomicity.  On a refresh failure other than
cancellation (a non-404 HTTP error or a network/parse rejection) a
user-visible notification is reported and the whole poller state —
fingerprint, active flag, counters, timer — is left exactly as it was,
with no render call and no published counts; on an abort the state is
likewise untouched and no notification is reported. -/
theorem C8_error_propagation (s : MState) (h : s.isRefreshing = false) :
    (∀ o, (o = FetchOutcome.httpError ∨ o = FetchOutcome.netError) →
        (pollStep s o).2.notified = true
        ∧ (pollStep s o).1 = s
        ∧ (pollStep s o).2.renderJobsCalls = 0
        ∧ (pollStep s o).2.renderEmptyCalls = 0
        ∧ (pollStep s o).2.statsPublished = none)
    ∧ ((pollStep s FetchOutcome.abortError).2.notified = false
        ∧ (pollStep s FetchOutcome.abortError).1 = s) := by
  obtain ⟨sh, sa, sr, st, ss, sab⟩ := s
  replace h : sr = false := h
  subst h
  constructor
  · intro o ho
    rcases ho with rfl | rfl <;>
      exact ⟨rfl, rfl, rfl, rfl, rfl⟩
  · exact ⟨rfl, rfl⟩

/-- C8 witness: a network failure from the initial state notifies and
leaves the state intact. -/
theorem C8_witness :
    (pollStep initState FetchOutcome.netError).2.notified = true
    ∧ (pollStep initState FetchOutcome.netError).1 = initState := by
  have h := (C8_error_propagation initState rfl).1 FetchOutcome.netError
    (Or.inr rfl)
  exact ⟨h.1, h.2.1⟩

end ImportManager

namespace ImportManager

theorem statusView_unknown (st : Option String)
    (h : isKnownStatus st = false) :
    statusView st = ("Sconosciuto", "border-l-4 border-l-gray-400") := by
  cases st with
  | none => rfl
  | some s =>
      simp only [isKnownStatus, knownStatuses, List.contains_eq_any_beq,
        List.any_cons, List.any_nil, Bool.or_false, Bool.or_eq_false_iff,
        beq_eq_false_iff_ne, ne_eq] at h
      obtain ⟨h1, h2, h3, h4⟩ := h
      simp [statusView, h1, h2, h3, h4, Ne.symm h1, Ne.symm h2, Ne.symm h3,
        Ne.symm h4]

theorem renderAll_ok (l : List Job)
    (h : ∀ j ∈ l, (Job.job_id j).isSome = true) :
    ∃ rs, renderAll l = Except.ok rs ∧ rs.length = l.length := by
  induction l with
  | nil => exact ⟨[], rfl, rfl⟩
  | cons x xs ih =>
      have hx := h x (List.mem_cons_self x xs)
      cases hjid : x.job_id with
      | none => rw [hjid] at hx; simp at hx
      | some s0 =>
          obtain ⟨rs, hrs, hlen⟩ :=
            ih (fun j hj => h j (List.mem_cons_of_mem _ hj))
          refine ⟨renderJobCore s0 x :: rs, ?_, by simp [hlen]⟩
          simp [renderAll, renderJob, hjid, hrs]

end ImportManager

namespace ImportManager

/-- C9: defensive payload handling.  For any job list in which every job
has an identifier (the only field whose absence makes the JS throw),
rendering completes without an exception; sorting completes and loses no
job; a job whose status is outside the closed set
running/queued/completed/failed renders without throwing and is presented
as unknown (Sconosciuto); a missing `progress_percent` defaults to zero in
both the shown percentage and the bar width; a missing `stage` inside
`progress` falls back to the In Corso label; missing progress counters
default to zero; and a missing `result.indexed` is shown as zero. -/
theorem C9_defensive (jobs : List Job)
    (hid : ∀ j ∈ jobs, (Job.job_id j).isSome = true) :
    (∃ rs, renderJobs jobs = Except.ok rs)
    ∧ (sortJobs jobs).length = jobs.length
    ∧ (∀ j ∈ jobs, ∀ s0, j.job_id = some s0 →
        isKnownStatus j.status = false →
        renderJob j = Except.ok (renderJobCore s0 j)
        ∧ (renderJobCore s0 j).statusText = "Sconosciuto"
        ∧ (renderJobCore s0 j).cardClass = "border-l-4 border-l-gray-400")
    ∧ (∀ j ∈ jobs, ∀ s0 p, j.job_id = some s0 → j.progress_percent = none →
        j.progress = some p →
        (renderJobCore s0 j).progressPercentShown = some 0
        ∧ (renderJobCore s0 j).progressBarWidth = some 0
        ∧ (p.stage = none →
            (renderJobCore s0 j).progressStageName = some "In Corso")
        ∧ (renderJobCore s0 j).progressCounts
            = some (p.total.getD 0, p.success.getD 0, p.failed.getD 0))
    ∧ (∀ j ∈ jobs, ∀ s0 r0, j.job_id = some s0 → j.result = some r0 →
        r0.indexed = none → (renderJobCore s0 j).resultIndexed = some 0) := by
  have hmr : mathRound ((0 : ℚ)) = 0 := by
    rw [mathRound, zero_add]
    exact Int.floor_eq_zero_iff.mpr ⟨by norm_num, by norm_num⟩
  have hcl : clamp100 ((0 : ℚ)) = 0 := by
    rw [clamp100]
    norm_num
  have hsn : stageName "" = "In Corso" := by decide
  refine ⟨?_, ?_, ?_, ?_, ?_⟩
  · by_cases he : jobs.isEmpty
    · exact ⟨[], by simp [renderJobs, he]⟩
    · obtain ⟨rs, hrs, _⟩ := renderAll_ok (sortJobs jobs)
        (fun j hj => hid j ((List.mergeSort_perm jobs jobLE).mem_iff.mp hj))
      exact ⟨rs, by simp [renderJobs, he, hrs]⟩
  · simp only [sortJobs]
    exact List.length_mergeSort jobs
  · intro j hj s0 hs0 hunk
    refine ⟨by simp [renderJob, hs0], ?_, ?_⟩
    · simp [renderJobCore, statusView_unknown _ hunk]
    · simp [renderJobCore, statusView_unknown _ hunk]
  · intro j hj s0 p hs0 hpp hp
    refine ⟨?_, ?_, ?_, ?_⟩
    · simp [renderJobCore, hp, hpp, hmr]
    · simp [renderJobCore, hp, hpp, hcl]
    · intro hst
      simp [renderJobCore, hp, hpp, hst, hsn]
    · simp [renderJobCore, hp]
  · intro j hj s0 r0 hs0 hr0 hidx
    simp [renderJobCore, hr0, hidx]

end ImportManager

namespace ImportManager

/-- A payload job with an unrecognized status and missing optional
fields. -/
def jobC9 : Job :=
  { job_id := some "zzzz9999xx"
    status := some "mystery"
    progress_percent := none
    progress := some { total := none, success := none, failed := none,
                       stage := none, urls := none }
    result := none
    detail := none }

/-- C9 witness: the defensive-handling theorem applied to a concrete job
with an unknown status. -/
theorem C9_witness :
    renderJob jobC9 = Except.ok (renderJobCore "zzzz9999xx" jobC9)
    ∧ (renderJobCore "zzzz9999xx" jobC9).statusText = "Sconosciuto"
    ∧ (renderJobCore "zzzz9999xx" jobC9).cardClass
        = "border-l-4 border-l-gray-400" :=
  (C9_defensive [jobC9] (by decide)).2.2.1 jobC9
    (List.mem_singleton.mpr rfl) "zzzz9999xx" rfl (by decide)

end ImportManager
